import Mathlib

/-!
Shallow embedding of `room_game.py`, a single-player text adventure over a
fixed graph of rooms connected by colored doors.  Rooms are stored in a list
and referenced by their index (Python object references become indices);
console output becomes explicit lists of strings; every mutating method
becomes a state-passing function.
-/

namespace RoomGame

/-- Embeds class `Door` (room_game.py:3-8): a colored edge to another room
with a lock flag.  `leadsTo` is the index of the destination room. -/
structure Door where
  color : String
  leadsTo : Nat
  locked : Bool
deriving DecidableEq

/-- Embeds class `Key` (room_game.py:11-19).  `foundIn` is the index of the
room the key was originally placed in (informational only). -/
structure Key where
  color : String
  foundIn : Nat
  description : String
deriving DecidableEq

/-- The only custom room action in the program is the closet light toggle
closure `toggle_light` (room_game.py:156-161), which captures the closet
room; we represent the captured reference by the room's index. -/
inductive ActionEffect where
  | toggleLight (room : Nat)
deriving DecidableEq

/-- Embeds class `Room` (room_game.py:22-65).  `actions` is the `actions`
dict as an association list; `lightOn` is the dynamically added
`light_on` attribute (room_game.py:155). -/
structure Room where
  name : String
  description : String
  doors : List Door
  keys : List Key
  actions : List (String × ActionEffect)
  lightOn : Bool
deriving DecidableEq

/-- Embeds class `Player` (room_game.py:68-114): current room index plus
ordered inventory. -/
structure Player where
  currentRoom : Nat
  inventory : List Key
deriving DecidableEq

/-- The mutable state of a `Game` (room_game.py:117-165): the room graph,
the player, and the bookkeeping list `self.keys`. -/
structure State where
  rooms : List Room
  player : Player
  gameKeys : List Key
deriving DecidableEq

/-- Dereferencing a room index; out-of-range indices (which never occur in
the constructed world) yield an inert empty room. -/
def emptyRoom : Room := ⟨"", "", [], [], [], false⟩

def getRoom (rs : List Room) (i : Nat) : Room := rs.getD i emptyRoom

/-- In-place mutation of the room object at index `i` (a no-op out of
range, mirroring that a Python reference always points at a real room). -/
def updateRoom : List Room → Nat → (Room → Room) → List Room
  | [], _, _ => []
  | r :: rest, 0, f => f r :: rest
  | r :: rest, n + 1, f => r :: updateRoom rest n f

/-! ### Python string helpers

The command loop normalizes input with `.strip().lower()` and tokenizes
with `.split()` (room_game.py:175,186).  We embed these operations on the
character list so that they are directly kernel-computable. -/

/-- Python `str.lower()` for the ASCII command strings the game uses. -/
def pyLower (s : String) : String := String.mk (s.toList.map Char.toLower)

/-- Python `str.strip()`: drop leading and trailing whitespace. -/
def pyStrip (s : String) : String :=
  String.mk (((s.toList.dropWhile Char.isWhitespace).reverse.dropWhile
    Char.isWhitespace).reverse)

/-- Python `str.capitalize()`: first character uppercased, rest lowercased. -/
def pyCapitalize (s : String) : String :=
  match s.toList with
  | [] => ""
  | c :: rest => String.mk (c.toUpper :: rest.map Char.toLower)

/-- Python `str.startswith(pre)`. -/
def pyStartsWith (s pre : String) : Bool := pre.toList.isPrefixOf s.toList

/-- One step of `str.split()`: accumulate a word in `acc` (reversed). -/
def splitWsGo : List Char → List Char → List String
  | [], acc => if acc.isEmpty then [] else [String.mk acc.reverse]
  | c :: cs, acc =>
    if c.isWhitespace then
      if acc.isEmpty then splitWsGo cs [] else String.mk acc.reverse :: splitWsGo cs []
    else splitWsGo cs (c :: acc)

/-- Python `str.split()`: split on whitespace runs, discarding empty tokens. -/
def splitWs (s : String) : List String := splitWsGo s.toList []

/-! ### Room methods (room_game.py:31-65) -/

/-- Embeds `Room.add_door` (room_game.py:31-32): append a fresh `Door`. -/
def add_door (r : Room) (color : String) (dest : Nat) (locked : Bool) : Room :=
  { r with doors := r.doors ++ [⟨color, dest, locked⟩] }

/-- Embeds `Room.add_key` (room_game.py:34-35). -/
def add_key (r : Room) (k : Key) : Room := { r with keys := r.keys ++ [k] }

/-- Python `list.remove` on keys: drop the first occurrence, if any. -/
def removeFirstKey (k : Key) : List Key → List Key
  | [] => []
  | k' :: rest => if k' = k then rest else k' :: removeFirstKey k rest

/-- Embeds `Room.remove_key` (room_game.py:37-39): a no-op when the key is
absent. -/
def remove_key (r : Room) (k : Key) : Room :=
  { r with keys := removeFirstKey k r.keys }

/-- Dict assignment `self.actions[command.lower()] = function`: overwrite
an existing binding in place, else append. -/
def setAction (cmd : String) (eff : ActionEffect) :
    List (String × ActionEffect) → List (String × ActionEffect)
  | [] => [(cmd, eff)]
  | (c, e) :: rest =>
    if c = cmd then (c, eff) :: rest else (c, e) :: setAction cmd eff rest

/-- Embeds `Room.add_action` (room_game.py:41-43). -/
def add_action (r : Room) (cmd : String) (eff : ActionEffect) : Room :=
  { r with actions := setAction (pyLower cmd) eff r.actions }

/-- The line `Room.describe` prints for one door (room_game.py:52-53). -/
def doorLine (d : Door) : String :=
  "- " ++ pyCapitalize d.color ++ (if d.locked then " (locked)" else "")

/-- Embeds `Room.describe` (room_game.py:45-65), as the list of printed lines. -/
def describeLines (r : Room) : List String :=
  (["You are in the " ++ r.name ++ ".", r.description]
    ++ (if r.doors.isEmpty then ["There are no doors here!"]
        else "You see doors in these colors:" :: r.doors.map doorLine)
    ++ (if r.keys.isEmpty then []
        else "You see some keys:" ::
          r.keys.map (fun k => "- " ++ pyCapitalize k.color ++ " key"))
    ++ (if r.actions.isEmpty then []
        else "You can also try actions like:" ::
          r.actions.map (fun a => "- " ++ a.1)))

/-- The call `self.player.current_room.describe()` (room_game.py:174) at
the top of each loop iteration, with the state threaded explicitly: the
method only prints, so the state component is returned as-is. -/
def describeRun (s : State) : State × List String :=
  (s, describeLines (getRoom s.rooms s.player.currentRoom))

/-! ### Player methods (room_game.py:74-114) -/

/-- The `for key in list(self.current_room.keys)` loop of
`Player.take_key` (room_game.py:80-83): `i` is the player's current room
index (unchanged throughout), `ks` the snapshot copy being iterated. -/
def pickupLoop (i : Nat) : List Key → State → List String → State × List String
  | [], s, out => (s, out)
  | k :: rest, s, out =>
    pickupLoop i rest
      { s with
        player := { s.player with inventory := s.player.inventory ++ [k] },
        rooms := updateRoom s.rooms i (fun r => remove_key r k) }
      (out ++ ["You picked up the " ++ k.color ++ " key."])

/-- Embeds `Player.take_key` (room_game.py:74-83). -/
def take_key (s : State) : State × List String :=
  if (getRoom s.rooms s.player.currentRoom).keys.isEmpty then
    (s, ["There are no keys here to take."])
  else
    pickupLoop s.player.currentRoom (getRoom s.rooms s.player.currentRoom).keys s []

/-- Setting `door.locked = False` on the first door of the given color
(the door object `use_key` found with `next(...)`, room_game.py:94,104). -/
def unlockFirst (color : String) : List Door → List Door
  | [] => []
  | d :: rest =>
    if d.color = color then { d with locked := false } :: rest
    else d :: unlockFirst color rest

/-- Embeds `Player.use_key` (room_game.py:85-105). -/
def use_key (color : String) (s : State) : State × List String :=
  match s.player.inventory.find? (fun k => k.color = color) with
  | none => (s, ["You don’t have a " ++ color ++ " key."])
  | some _ =>
    match (getRoom s.rooms s.player.currentRoom).doors.find?
        (fun d => d.color = color) with
    | none => (s, ["There is no " ++ color ++ " door here."])
    | some d =>
      if d.locked then
        ({ s with
            rooms := updateRoom s.rooms s.player.currentRoom
              (fun r => { r with doors := unlockFirst color r.doors }) },
          ["You used the " ++ color ++ " key to unlock the door!"])
      else (s, ["The " ++ color ++ " door is already unlocked."])

/-- Embeds `Player.list_inventory` (room_game.py:107-114). -/
def list_inventory (s : State) : State × List String :=
  if s.player.inventory.isEmpty then (s, ["You’re not carrying any keys."])
  else
    (s, "You have the following keys:" ::
      s.player.inventory.map (fun k => "- " ++ pyCapitalize k.color ++ " key"))

/-- The message of `toggle_light` when the light turns on
(room_game.py:159). -/
def lightOnMsg : String :=
  "You pull the string — the light flickers on, revealing shelves of old clothes."

/-- The message of `toggle_light` when the light turns off
(room_game.py:161). -/
def lightOffMsg : String :=
  "You pull the string again — the light clicks off, and the closet goes dark."

/-- Running a custom room action; `toggleLight i` is the `toggle_light`
closure (room_game.py:156-161): it flips the captured room's `light_on`
flag and reports the new value. -/
def runEffect : ActionEffect → State → State × List String
  | ActionEffect.toggleLight i, s =>
    ({ s with
        rooms := updateRoom s.rooms i
          (fun r => { r with lightOn := !(getRoom s.rooms i).lightOn }) },
      [if !(getRoom s.rooms i).lightOn then lightOnMsg else lightOffMsg])

/-! ### World construction (room_game.py:123-165)

Room indices: 0 Kitchen, 1 Living Room, 2 Study, 3 Garden, 4 Bedroom,
5 Bedroom Closet. -/

/-- The key `key_blue` (room_game.py:145). -/
def keyBlue : Key := ⟨"blue", 1, "engraved with a small \x27S\x27."⟩

/-- The key `key_cyan` (room_game.py:146). -/
def keyCyan : Key := ⟨"cyan", 3, "it sparkles faintly in the sunlight."⟩

/-- The Garden's single door (room_game.py:138). -/
def orangeDoor : Door := ⟨"orange", 1, true⟩

/-- Embeds `Game.create_world` (room_game.py:123-165): rooms, doors, keys, the
closet light action, and the player starting in the Kitchen. -/
def worldState : State :=
  let kitchen := Room.mk "Kitchen" "A bright kitchen with the smell of fresh bread." [] [] [] false
  let livingRoom := Room.mk "Living Room" "A cozy space with a roaring fireplace." [] [] [] false
  let study := Room.mk "Study" "A quiet study filled with dusty books." [] [] [] false
  let garden := Room.mk "Garden" "A lush garden buzzing with bees and sunlight." [] [] [] false
  let bedRoom := Room.mk "Bedroom" "A dim room with clothes scattered about." [] [] [] false
  let bedroomCloset := Room.mk "Bedroom Closet" "A walk-in closet with a single pull-string light." [] [] [] false
  let kitchen := add_door kitchen "red" 1 false
  let kitchen := add_door kitchen "blue" 2 true
  let livingRoom := add_door livingRoom "green" 0 false
  let livingRoom := add_door livingRoom "yellow" 3 false
  let study := add_door study "purple" 0 false
  let garden := add_door garden "orange" 1 true
  let livingRoom := add_door livingRoom "cyan" 4 false
  let bedRoom := add_door bedRoom "black" 1 false
  let bedRoom := add_door bedRoom "white" 5 false
  let bedroomCloset := add_door bedroomCloset "white" 1 false
  let livingRoom := add_key livingRoom keyBlue
  let garden := add_key garden keyCyan
  let bedroomCloset := { bedroomCloset with lightOn := false }
  let bedroomCloset := add_action bedroomCloset "pull string" (ActionEffect.toggleLight 5)
  { rooms := [kitchen, livingRoom, study, garden, bedRoom, bedroomCloset],
    player := ⟨0, []⟩,
    gameKeys := [keyBlue, keyCyan] }

/-! ### The command loop (room_game.py:167-213) -/

/-- The outcome of one loop iteration: quit, or continue with the new
state; in both cases carrying the printed output. -/
inductive StepResult where
  | quit (out : List String)
  | cont (s : State) (out : List String)
deriving DecidableEq

/-- Continue with the state/output pair a method call returned. -/
def contOf (p : State × List String) : StepResult := StepResult.cont p.1 p.2

/-- The dispatch of one already-normalized command, i.e. the body of the
`while True` loop after `command = input(...).strip().lower()`
(room_game.py:177-213). -/
def dispatch (command : String) (s : State) : StepResult :=
  if command = "quit" then StepResult.quit ["Thanks for playing!"]
  else if command = "take key" then contOf (take_key s)
  else if pyStartsWith command "use " then
    (if (splitWs command).length = 3 ∧ (splitWs command).getD 2 "" = "key" then
      contOf (use_key ((splitWs command).getD 1 "") s)
    else StepResult.cont s ["Try \x27use [color] key\x27."])
  else if command = "inventory" then contOf (list_inventory s)
  else
    match (getRoom s.rooms s.player.currentRoom).actions.lookup command with
    | some eff => contOf (runEffect eff s)
    | none =>
      match (getRoom s.rooms s.player.currentRoom).doors.find?
          (fun d => d.color = command) with
      | none => StepResult.cont s ["There is no door of that color here."]
      | some d =>
        if d.locked then
          StepResult.cont s ["That door is locked. You need the matching key."]
        else
          StepResult.cont
            { s with player := { s.player with currentRoom := d.leadsTo } } []

/-- Embeds `command = input("> ").strip().lower()` (room_game.py:175). -/
def normalize (input : String) : String := pyLower (pyStrip input)

/-- One full loop iteration on a raw input line. -/
def step (input : String) (s : State) : StepResult := dispatch (normalize input) s

/-- The state after one loop iteration (quitting leaves the state as it
was; the process just stops reading). -/
def stepState (input : String) (s : State) : State :=
  match step input s with
  | StepResult.quit _ => s
  | StepResult.cont s' _ => s'

/-- Feeding a whole list of input lines to the loop, stopping at `quit`. -/
def run : List String → State → State
  | [], s => s
  | i :: rest, s =>
    match step i s with
    | StepResult.quit _ => s
    | StepResult.cont s' _ => run rest s'

/-- The states the game loop can reach from the constructed world. -/
inductive Reachable : State → Prop where
  | init : Reachable worldState
  | step (i : String) {s : State} : Reachable s → Reachable (stepState i s)

/-- The state after one dispatched (already normalized) command; quitting
leaves the state untouched. -/
def dispState (cmd : String) (s : State) : State :=
  match dispatch cmd s with
  | StepResult.quit _ => s
  | StepResult.cont s' _ => s'

/-- The three conditions under which `use_key` flips a lock
(room_game.py:88-101): a matching key in inventory, a first matching door
in the current room, and that door locked. -/
def UnlockOk (s : State) (c : String) : Prop :=
  (∃ k ∈ s.player.inventory, k.color = c) ∧
  ∃ d, (getRoom s.rooms s.player.currentRoom).doors.find?
      (fun x => x.color = c) = some d ∧ d.locked = true

/-- Applying the closet light action once (`toggle_light`,
room_game.py:156-161), keeping only the state. -/
def pullLight (s : State) : State := (runEffect (ActionEffect.toggleLight 5) s).1

/-- Iterates `n` successive invocations of the closet light action. -/
def toggleIter : Nat → State → State
  | 0, s => s
  | n + 1, s => pullLight (toggleIter n s)

/-- Invariant maintained by every loop iteration: the world keeps its six
rooms, no key colored "orange" exists in any inventory or room, and the
Garden (room 3) keeps its single locked orange door. -/
def Inv (s : State) : Prop :=
  s.rooms.length = 6 ∧
  (∀ k ∈ s.player.inventory, k.color ≠ "orange") ∧
  (∀ r ∈ s.rooms, ∀ k ∈ r.keys, k.color ≠ "orange") ∧
  (getRoom s.rooms 3).doors = [orangeDoor]

/-- Test room with two doors of the same color ("red"), for exercising the
first-match resolution claims. -/
def dupRoomLocked : Room :=
  ⟨"A", "", [⟨"blue", 1, false⟩, ⟨"red", 1, true⟩, ⟨"red", 2, false⟩], [], [], false⟩

/-- Test state: player in `dupRoomLocked` holding a red key. -/
def dupStateLocked : State :=
  ⟨[dupRoomLocked], ⟨0, [⟨"red", 0, ""⟩]⟩, []⟩

/-- Test room whose first red door is unlocked, again with a duplicate red
door behind it. -/
def dupRoomOpen : Room :=
  ⟨"A", "", [⟨"blue", 1, false⟩, ⟨"red", 7, false⟩, ⟨"red", 2, false⟩], [], [], false⟩

/-- Test state: player in `dupRoomOpen` with an empty inventory. -/
def dupStateOpen : State := ⟨[dupRoomOpen], ⟨0, []⟩, []⟩

/-- Test state: the constructed world with the player holding the blue key
while standing in the Kitchen. -/
def c1PosState : State := { worldState with player := ⟨0, [keyBlue]⟩ }

/-- Test state: the constructed world with the player in the Bedroom
Closet (room 5). -/
def closetState : State := { worldState with player := ⟨5, []⟩ }

/-- Test state: the constructed world with the player in the Living Room
(room 1). -/
def livingState : State := { worldState with player := ⟨1, []⟩ }

/-- The state reached from the initial world by the inputs "red" then
"yellow": Kitchen → Living Room → Garden. -/
def gardenState : State := stepState "yellow" (stepState "red" worldState)

/-! ### Indexing lemmas -/

theorem getRoom_nil (i : Nat) : getRoom [] i = emptyRoom := rfl

theorem getRoom_cons_zero (r : Room) (rest : List Room) : getRoom (r :: rest) 0 = r := rfl

theorem getRoom_cons_succ (r : Room) (rest : List Room) (j : Nat) :
    getRoom (r :: rest) (j + 1) = getRoom rest j := rfl

theorem getRoom_oob : ∀ (rs : List Room) (i : Nat), rs.length ≤ i → getRoom rs i = emptyRoom
  | [], _, _ => rfl
  | _ :: rest, i + 1, h => getRoom_oob rest i (Nat.le_of_succ_le_succ h)

theorem length_updateRoom : ∀ (rs : List Room) (i : Nat) (f : Room → Room),
    (updateRoom rs i f).length = rs.length
  | [], _, _ => rfl
  | _ :: _, 0, _ => rfl
  | _ :: rest, i + 1, f => by simp [updateRoom, length_updateRoom rest i f]

theorem updateRoom_oob : ∀ (rs : List Room) (i : Nat) (f : Room → Room),
    rs.length ≤ i → updateRoom rs i f = rs
  | [], _, _, _ => rfl
  | _ :: rest, i + 1, f, h => by
    simp [updateRoom, updateRoom_oob rest i f (Nat.le_of_succ_le_succ h)]

theorem getRoom_updateRoom_self : ∀ (rs : List Room) (i : Nat) (f : Room → Room),
    i < rs.length → getRoom (updateRoom rs i f) i = f (getRoom rs i)
  | _ :: _, 0, _, _ => rfl
  | _ :: rest, i + 1, f, h =>
    getRoom_updateRoom_self rest i f (Nat.lt_of_succ_lt_succ h)

theorem getRoom_updateRoom_other : ∀ (rs : List Room) (i j : Nat) (f : Room → Room),
    j ≠ i → getRoom (updateRoom rs i f) j = getRoom rs j
  | [], _, _, _, _ => rfl
  | _ :: _, 0, 0, _, h => absurd rfl h
  | _ :: _, 0, _ + 1, _, _ => rfl
  | _ :: _, _ + 1, 0, _, _ => rfl
  | _ :: rest, i + 1, j + 1, f, h =>
    getRoom_updateRoom_other rest i j f (fun hji => h (by rw [hji]))

theorem mem_of_getRoom_lt : ∀ (rs : List Room) (j : Nat), j < rs.length → getRoom rs j ∈ rs
  | r :: rest, 0, _ => List.mem_cons_self r rest
  | r :: rest, j + 1, h =>
    List.mem_cons_of_mem r (mem_of_getRoom_lt rest j (Nat.lt_of_succ_lt_succ h))

theorem mem_iff_getRoom (rs : List Room) (r : Room) :
    r ∈ rs ↔ ∃ j, j < rs.length ∧ getRoom rs j = r := by
  constructor
  · intro h
    induction rs with
    | nil => cases h
    | cons a rest ih =>
      rcases List.mem_cons.mp h with h | h
      · exact ⟨0, Nat.succ_pos _, h.symm⟩
      · rcases ih h with ⟨j, hj, hg⟩
        exact ⟨j + 1, Nat.succ_lt_succ hj, hg⟩
  · rintro ⟨j, hj, hg⟩
    exact hg ▸ mem_of_getRoom_lt rs j hj

theorem getRoom_update_keys_eq (rs : List Room) (i : Nat) (f : Room → Room)
    (hf : ∀ r, (f r).keys = r.keys) (j : Nat) :
    (getRoom (updateRoom rs i f) j).keys = (getRoom rs j).keys := by
  by_cases hj : j = i
  · subst hj
    by_cases hlt : j < rs.length
    · rw [getRoom_updateRoom_self rs j f hlt, hf]
    · rw [updateRoom_oob rs j f (Nat.le_of_not_lt hlt)]
  · rw [getRoom_updateRoom_other rs i j f hj]

theorem getRoom_update_doors_eq (rs : List Room) (i : Nat) (f : Room → Room)
    (hf : ∀ r, (f r).doors = r.doors) (j : Nat) :
    (getRoom (updateRoom rs i f) j).doors = (getRoom rs j).doors := by
  by_cases hj : j = i
  · subst hj
    by_cases hlt : j < rs.length
    · rw [getRoom_updateRoom_self rs j f hlt, hf]
    · rw [updateRoom_oob rs j f (Nat.le_of_not_lt hlt)]
  · rw [getRoom_updateRoom_other rs i j f hj]

/-! ### First-match lemmas for doors -/

theorem find?_first_door (c : String) (ds1 : List Door) (d : Door) (ds2 : List Door)
    (h : ∀ x ∈ ds1, x.color ≠ c) (hd : d.color = c) :
    (ds1 ++ d :: ds2).find? (fun x => x.color = c) = some d := by
  induction ds1 with
  | nil => simp [List.find?, hd]
  | cons a l ih =>
    have ha : a.color ≠ c := h a (List.mem_cons_self a l)
    rw [List.cons_append, List.find?_cons_of_neg _ (by simpa using ha)]
    exact ih fun x hx => h x (List.mem_cons_of_mem a hx)

theorem unlockFirst_append (c : String) (ds1 : List Door) (d : Door) (ds2 : List Door)
    (h : ∀ x ∈ ds1, x.color ≠ c) (hd : d.color = c) :
    unlockFirst c (ds1 ++ d :: ds2) = ds1 ++ { d with locked := false } :: ds2 := by
  induction ds1 with
  | nil => simp [unlockFirst, hd]
  | cons a l ih =>
    have ha : a.color ≠ c := h a (List.mem_cons_self a l)
    simp only [List.cons_append, unlockFirst, List.append_eq]
    rw [if_neg ha, ih fun x hx => h x (List.mem_cons_of_mem a hx)]

theorem find?_door_lt (s : State) (c : String) (d : Door)
    (hd : (getRoom s.rooms s.player.currentRoom).doors.find?
      (fun x => x.color = c) = some d) :
    s.player.currentRoom < s.rooms.length := by
  by_contra h
  rw [getRoom_oob s.rooms s.player.currentRoom (Nat.le_of_not_lt h)] at hd
  simp [emptyRoom] at hd

/-! ### take_key lemmas -/

theorem pickupLoop_currentRoom (i : Nat) :
    ∀ (ks : List Key) (s : State) (out : List String),
    (pickupLoop i ks s out).1.player.currentRoom = s.player.currentRoom
  | [], _, _ => rfl
  | _ :: rest, _, _ => pickupLoop_currentRoom i rest _ _

theorem pickupLoop_gameKeys (i : Nat) :
    ∀ (ks : List Key) (s : State) (out : List String),
    (pickupLoop i ks s out).1.gameKeys = s.gameKeys
  | [], _, _ => rfl
  | _ :: rest, _, _ => pickupLoop_gameKeys i rest _ _

theorem pickupLoop_inventory (i : Nat) :
    ∀ (ks : List Key) (s : State) (out : List String),
    (pickupLoop i ks s out).1.player.inventory = s.player.inventory ++ ks
  | [], s, _ => (List.append_nil _).symm
  | k :: rest, s, out => by
    rw [pickupLoop, pickupLoop_inventory i rest _ _]
    simp

theorem pickupLoop_out (i : Nat) :
    ∀ (ks : List Key) (s : State) (out : List String),
    (pickupLoop i ks s out).2
      = out ++ ks.map (fun k => "You picked up the " ++ k.color ++ " key.")
  | [], s, out => (List.append_nil _).symm
  | k :: rest, s, out => by
    rw [pickupLoop, pickupLoop_out i rest _ _]
    simp

theorem pickupLoop_length (i : Nat) :
    ∀ (ks : List Key) (s : State) (out : List String),
    (pickupLoop i ks s out).1.rooms.length = s.rooms.length
  | [], _, _ => rfl
  | k :: rest, s, out => by
    rw [pickupLoop, pickupLoop_length i rest _ _]
    exact length_updateRoom s.rooms i _

theorem pickupLoop_room_other (i j : Nat) (hj : j ≠ i) :
    ∀ (ks : List Key) (s : State) (out : List String),
    getRoom (pickupLoop i ks s out).1.rooms j = getRoom s.rooms j
  | [], _, _ => rfl
  | k :: rest, s, out => by
    rw [pickupLoop, pickupLoop_room_other i j hj rest _ _]
    exact getRoom_updateRoom_other s.rooms i j _ hj

theorem pickupLoop_room_self (i : Nat) :
    ∀ (ks : List Key) (s : State) (out : List String),
    (getRoom s.rooms i).keys = ks →
    getRoom (pickupLoop i ks s out).1.rooms i = { getRoom s.rooms i with keys := [] }
  | [], s, out, h => by
    have : getRoom s.rooms i = { getRoom s.rooms i with keys := ([] : List Key) } := by
      cases hr : getRoom s.rooms i
      rw [hr] at h
      simp only at h
      simp [h]
    exact this.symm ▸ rfl
  | k :: rest, s, out, h => by
    have hlt : i < s.rooms.length := by
      by_contra hge
      rw [getRoom_oob s.rooms i (Nat.le_of_not_lt hge)] at h
      simp [emptyRoom] at h
    rw [pickupLoop]
    have hself : getRoom (updateRoom s.rooms i (fun r => remove_key r k)) i
        = remove_key (getRoom s.rooms i) k :=
      getRoom_updateRoom_self s.rooms i _ hlt
    have hkeys : (getRoom (updateRoom s.rooms i (fun r => remove_key r k)) i).keys = rest := by
      rw [hself, remove_key, h]
      simp [removeFirstKey]
    rw [pickupLoop_room_self i rest _ _ hkeys, hself]
    rfl

theorem take_key_empty (s : State)
    (h : (getRoom s.rooms s.player.currentRoom).keys = []) :
    take_key s = (s, ["There are no keys here to take."]) := by
  rw [take_key, if_pos (List.isEmpty_iff.mpr h)]

theorem take_key_eq_pickup (s : State)
    (h : (getRoom s.rooms s.player.currentRoom).keys ≠ []) :
    take_key s = pickupLoop s.player.currentRoom
      (getRoom s.rooms s.player.currentRoom).keys s [] := by
  rw [take_key, if_neg (by simpa [List.isEmpty_iff] using h)]

theorem take_key_currentRoom (s : State) :
    (take_key s).1.player.currentRoom = s.player.currentRoom := by
  by_cases h : (getRoom s.rooms s.player.currentRoom).keys = []
  · rw [take_key_empty s h]
  · rw [take_key_eq_pickup s h]
    exact pickupLoop_currentRoom _ _ _ _

theorem take_key_gameKeys (s : State) : (take_key s).1.gameKeys = s.gameKeys := by
  by_cases h : (getRoom s.rooms s.player.currentRoom).keys = []
  · rw [take_key_empty s h]
  · rw [take_key_eq_pickup s h]
    exact pickupLoop_gameKeys _ _ _ _

theorem take_key_length (s : State) : (take_key s).1.rooms.length = s.rooms.length := by
  by_cases h : (getRoom s.rooms s.player.currentRoom).keys = []
  · rw [take_key_empty s h]
  · rw [take_key_eq_pickup s h]
    exact pickupLoop_length _ _ _ _

/-! ### use_key lemmas -/

theorem use_key_cases (c : String) (s : State) :
    (use_key c s).1 = s ∨
    ∃ k d, s.player.inventory.find? (fun x => x.color = c) = some k ∧
      (getRoom s.rooms s.player.currentRoom).doors.find? (fun x => x.color = c) = some d ∧
      d.locked = true ∧
      (use_key c s).1 = { s with
        rooms := updateRoom s.rooms s.player.currentRoom
          (fun r => { r with doors := unlockFirst c r.doors }) } := by
  cases hk : s.player.inventory.find? (fun x => x.color = c) with
  | none => exact Or.inl (by simp [use_key, hk])
  | some k =>
    cases hd : (getRoom s.rooms s.player.currentRoom).doors.find? (fun x => x.color = c) with
    | none => exact Or.inl (by simp [use_key, hk, hd])
    | some d =>
      cases hl : d.locked with
      | false => exact Or.inl (by simp [use_key, hk, hd, hl])
      | true => exact Or.inr ⟨k, d, rfl, rfl, hl, by simp [use_key, hk, hd, hl]⟩

theorem use_key_player (c : String) (s : State) : (use_key c s).1.player = s.player := by
  rcases use_key_cases c s with h | ⟨k, d, _, _, _, h⟩ <;> rw [h]

theorem use_key_gameKeys (c : String) (s : State) :
    (use_key c s).1.gameKeys = s.gameKeys := by
  rcases use_key_cases c s with h | ⟨k, d, _, _, _, h⟩ <;> rw [h]

theorem use_key_length (c : String) (s : State) :
    (use_key c s).1.rooms.length = s.rooms.length := by
  rcases use_key_cases c s with h | ⟨k, d, _, _, _, h⟩
  · rw [h]
  · rw [h]
    exact length_updateRoom s.rooms _ _

theorem use_key_room_keys (c : String) (s : State) (j : Nat) :
    (getRoom (use_key c s).1.rooms j).keys = (getRoom s.rooms j).keys := by
  rcases use_key_cases c s with h | ⟨k, d, _, _, _, h⟩
  · rw [h]
  · rw [h]
    exact getRoom_update_keys_eq s.rooms s.player.currentRoom
      (fun r => { r with doors := unlockFirst c r.doors }) (fun r => rfl) j

theorem use_key_not_ok (c : String) (s : State) (h : ¬ UnlockOk s c) :
    (use_key c s).1 = s := by
  rcases use_key_cases c s with heq | ⟨k, d, hk, hd, hl, heq⟩
  · exact heq
  · exact absurd
      ⟨⟨k, List.mem_of_find?_eq_some hk, by simpa using List.find?_some hk⟩,
        ⟨d, hd, hl⟩⟩ h

theorem use_key_ok (c : String) (s : State) (h : UnlockOk s c) :
    use_key c s = ({ s with
        rooms := updateRoom s.rooms s.player.currentRoom
          (fun r => { r with doors := unlockFirst c r.doors }) },
      ["You used the " ++ c ++ " key to unlock the door!"]) := by
  rcases h with ⟨⟨k, hk, hkc⟩, d, hd, hl⟩
  have hks : (s.player.inventory.find? (fun x => x.color = c)).isSome :=
    List.find?_isSome.mpr ⟨k, hk, by simpa using hkc⟩
  cases hk2 : s.player.inventory.find? (fun x => x.color = c) with
  | none => rw [hk2] at hks; simp at hks
  | some k2 => simp [use_key, hk2, hd, hl]

theorem use_key_fail_out (c : String) (s : State) (h : ¬ UnlockOk s c) :
    (use_key c s).2.length = 1 := by
  cases hk : s.player.inventory.find? (fun x => x.color = c) with
  | none => simp [use_key, hk]
  | some k =>
    cases hd : (getRoom s.rooms s.player.currentRoom).doors.find? (fun x => x.color = c) with
    | none => simp [use_key, hk, hd]
    | some d =>
      cases hl : d.locked with
      | false => simp [use_key, hk, hd, hl]
      | true =>
        exact absurd
          ⟨⟨k, List.mem_of_find?_eq_some hk, by simpa using List.find?_some hk⟩,
            ⟨d, hd, hl⟩⟩ h

/-! ### Other operation lemmas -/

theorem list_inventory_state (s : State) : (list_inventory s).1 = s := by
  rw [list_inventory]
  split <;> rfl

theorem runEffect_player (e : ActionEffect) (s : State) :
    (runEffect e s).1.player = s.player := by
  cases e with
  | toggleLight i => rfl

theorem runEffect_gameKeys (e : ActionEffect) (s : State) :
    (runEffect e s).1.gameKeys = s.gameKeys := by
  cases e with
  | toggleLight i => rfl

theorem runEffect_length (e : ActionEffect) (s : State) :
    (runEffect e s).1.rooms.length = s.rooms.length := by
  cases e with
  | toggleLight i =>
    simp only [runEffect]
    exact length_updateRoom s.rooms i _

theorem runEffect_room_keys (e : ActionEffect) (s : State) (j : Nat) :
    (getRoom (runEffect e s).1.rooms j).keys = (getRoom s.rooms j).keys := by
  cases e with
  | toggleLight i =>
    simp only [runEffect]
    exact getRoom_update_keys_eq s.rooms i
      (fun r => { r with lightOn := !(getRoom s.rooms i).lightOn }) (fun r => rfl) j

theorem runEffect_room_doors (e : ActionEffect) (s : State) (j : Nat) :
    (getRoom (runEffect e s).1.rooms j).doors = (getRoom s.rooms j).doors := by
  cases e with
  | toggleLight i =>
    simp only [runEffect]
    exact getRoom_update_doors_eq s.rooms i
      (fun r => { r with lightOn := !(getRoom s.rooms i).lightOn }) (fun r => rfl) j

theorem find?_singleton (p : Door → Bool) (x d : Door)
    (h : List.find? p [x] = some d) : d = x ∧ p x = true := by
  cases hp : p x with
  | true =>
    rw [List.find?_cons_of_pos _ hp] at h
    exact ⟨(Option.some.inj h).symm, rfl⟩
  | false =>
    rw [List.find?_cons_of_neg _ (by simp [hp])] at h
    simp at h

/-! ### Dispatch branch lemmas -/

theorem dispatch_quit (s : State) (cmd : String) (h : cmd = "quit") :
    dispatch cmd s = StepResult.quit ["Thanks for playing!"] := by
  subst h; rfl

theorem dispatch_take (s : State) (cmd : String) (h : cmd = "take key") :
    dispatch cmd s = contOf (take_key s) := by
  subst h; rfl

theorem dispatch_use_form (s : State) (cmd : String)
    (h1 : cmd ≠ "quit") (h2 : cmd ≠ "take key")
    (h3 : pyStartsWith cmd "use " = true)
    (h4 : (splitWs cmd).length = 3) (h5 : (splitWs cmd).getD 2 "" = "key") :
    dispatch cmd s = contOf (use_key ((splitWs cmd).getD 1 "") s) := by
  rw [dispatch, if_neg h1, if_neg h2, if_pos h3, if_pos ⟨h4, h5⟩]

theorem dispatch_use_bad (s : State) (cmd : String)
    (h1 : cmd ≠ "quit") (h2 : cmd ≠ "take key")
    (h3 : pyStartsWith cmd "use " = true)
    (h4 : ¬((splitWs cmd).length = 3 ∧ (splitWs cmd).getD 2 "" = "key")) :
    dispatch cmd s = StepResult.cont s ["Try \x27use [color] key\x27."] := by
  rw [dispatch, if_neg h1, if_neg h2, if_pos h3, if_neg h4]

theorem dispatch_inv (s : State) (cmd : String)
    (h : cmd = "inventory") :
    dispatch cmd s = contOf (list_inventory s) := by
  subst h; rfl

theorem dispatch_else (s : State) (cmd : String)
    (h1 : cmd ≠ "quit") (h2 : cmd ≠ "take key")
    (h3 : ¬ pyStartsWith cmd "use " = true) (h4 : cmd ≠ "inventory") :
    dispatch cmd s =
      match (getRoom s.rooms s.player.currentRoom).actions.lookup cmd with
      | some eff => contOf (runEffect eff s)
      | none =>
        match (getRoom s.rooms s.player.currentRoom).doors.find?
            (fun d => d.color = cmd) with
        | none => StepResult.cont s ["There is no door of that color here."]
        | some d =>
          if d.locked then
            StepResult.cont s ["That door is locked. You need the matching key."]
          else
            StepResult.cont
              { s with player := { s.player with currentRoom := d.leadsTo } } [] := by
  rw [dispatch, if_neg h1, if_neg h2, if_neg h3, if_neg h4]

theorem dispatch_action (s : State) (cmd : String) (eff : ActionEffect)
    (h1 : cmd ≠ "quit") (h2 : cmd ≠ "take key")
    (h3 : ¬ pyStartsWith cmd "use " = true) (h4 : cmd ≠ "inventory")
    (hl : (getRoom s.rooms s.player.currentRoom).actions.lookup cmd = some eff) :
    dispatch cmd s = contOf (runEffect eff s) := by
  rw [dispatch_else s cmd h1 h2 h3 h4, hl]

theorem dispatch_door_none (s : State) (cmd : String)
    (h1 : cmd ≠ "quit") (h2 : cmd ≠ "take key")
    (h3 : ¬ pyStartsWith cmd "use " = true) (h4 : cmd ≠ "inventory")
    (hl : (getRoom s.rooms s.player.currentRoom).actions.lookup cmd = none)
    (hf : (getRoom s.rooms s.player.currentRoom).doors.find?
      (fun d => d.color = cmd) = none) :
    dispatch cmd s = StepResult.cont s ["There is no door of that color here."] := by
  rw [dispatch_else s cmd h1 h2 h3 h4, hl, hf]

theorem dispatch_door_locked (s : State) (cmd : String) (d : Door)
    (h1 : cmd ≠ "quit") (h2 : cmd ≠ "take key")
    (h3 : ¬ pyStartsWith cmd "use " = true) (h4 : cmd ≠ "inventory")
    (hl : (getRoom s.rooms s.player.currentRoom).actions.lookup cmd = none)
    (hf : (getRoom s.rooms s.player.currentRoom).doors.find?
      (fun x => x.color = cmd) = some d)
    (hlk : d.locked = true) :
    dispatch cmd s
      = StepResult.cont s ["That door is locked. You need the matching key."] := by
  rw [dispatch_else s cmd h1 h2 h3 h4, hl, hf]
  simp [hlk]

theorem dispatch_door_open (s : State) (cmd : String) (d : Door)
    (h1 : cmd ≠ "quit") (h2 : cmd ≠ "take key")
    (h3 : ¬ pyStartsWith cmd "use " = true) (h4 : cmd ≠ "inventory")
    (hl : (getRoom s.rooms s.player.currentRoom).actions.lookup cmd = none)
    (hf : (getRoom s.rooms s.player.currentRoom).doors.find?
      (fun x => x.color = cmd) = some d)
    (hlk : d.locked = false) :
    dispatch cmd s = StepResult.cont
      { s with player := { s.player with currentRoom := d.leadsTo } } [] := by
  rw [dispatch_else s cmd h1 h2 h3 h4, hl, hf]
  simp [hlk]

theorem dispState_of_quit (cmd : String) (s : State) (out : List String)
    (h : dispatch cmd s = StepResult.quit out) : dispState cmd s = s := by
  rw [dispState, h]

theorem dispState_of_cont (cmd : String) (s s' : State) (out : List String)
    (h : dispatch cmd s = StepResult.cont s' out) : dispState cmd s = s' := by
  rw [dispState, h]

theorem stepState_eq (i : String) (s : State) :
    stepState i s = dispState (normalize i) s := rfl

/-! ### The invariant of reachable states -/

theorem inv_world : Inv worldState := by
  unfold Inv
  decide

theorem inv_take_key (s : State) (h : Inv s) : Inv (take_key s).1 := by
  obtain ⟨hlen, hinv, hrooms, hdoors⟩ := h
  by_cases hk : (getRoom s.rooms s.player.currentRoom).keys = []
  · rw [take_key_empty s hk]
    exact ⟨hlen, hinv, hrooms, hdoors⟩
  · rw [take_key_eq_pickup s hk]
    have hlt : s.player.currentRoom < s.rooms.length := by
      by_contra hge
      rw [getRoom_oob s.rooms s.player.currentRoom (Nat.le_of_not_lt hge)] at hk
      exact hk rfl
    have hks : ∀ k ∈ (getRoom s.rooms s.player.currentRoom).keys, k.color ≠ "orange" :=
      hrooms _ (mem_of_getRoom_lt s.rooms _ hlt)
    refine ⟨?_, ?_, ?_, ?_⟩
    · rw [pickupLoop_length]; exact hlen
    · rw [pickupLoop_inventory]
      intro k hk2
      rcases List.mem_append.mp hk2 with h2 | h2
      · exact hinv k h2
      · exact hks k h2
    · intro r hr
      rw [mem_iff_getRoom] at hr
      rcases hr with ⟨j, hj, hg⟩
      rw [pickupLoop_length] at hj
      by_cases hji : j = s.player.currentRoom
      · subst hji
        rw [pickupLoop_room_self s.player.currentRoom _ s [] rfl] at hg
        intro k hk2
        rw [← hg] at hk2
        simp at hk2
      · rw [pickupLoop_room_other _ j hji] at hg
        exact hg ▸ hrooms _ (mem_of_getRoom_lt s.rooms j hj)
    · by_cases h3 : (3 : Nat) = s.player.currentRoom
      · rw [← h3]
        rw [pickupLoop_room_self 3 ((getRoom s.rooms 3).keys) s [] rfl]
        simpa using hdoors
      · rw [pickupLoop_room_other _ 3 h3]
        exact hdoors

theorem inv_use_key (c : String) (s : State) (h : Inv s) : Inv (use_key c s).1 := by
  obtain ⟨hlen, hinv, hrooms, hdoors⟩ := h
  refine ⟨?_, ?_, ?_, ?_⟩
  · rw [use_key_length]; exact hlen
  · rw [use_key_player]; exact hinv
  · intro r hr
    rw [mem_iff_getRoom] at hr
    rcases hr with ⟨j, hj, hg⟩
    rw [use_key_length] at hj
    intro k hk2
    rw [← hg] at hk2
    rw [use_key_room_keys c s j] at hk2
    exact hrooms _ (mem_of_getRoom_lt s.rooms j hj) k hk2
  · rcases use_key_cases c s with heq | ⟨k, d, hfk, hfd, hlk, heq⟩
    · rw [heq]; exact hdoors
    · rw [heq]
      by_cases h3 : s.player.currentRoom = 3
      · exfalso
        rw [h3, hdoors] at hfd
        rcases find?_singleton _ orangeDoor d hfd with ⟨hdo, hpo⟩
        have hco : "orange" = c := by simpa [orangeDoor] using hpo
        have hkmem := List.mem_of_find?_eq_some hfk
        have hkc : k.color = c := by simpa using List.find?_some hfk
        exact hinv k hkmem (by rw [hkc, ← hco])
      · have h3n : (3 : Nat) ≠ s.player.currentRoom := fun hh => h3 hh.symm
        show (getRoom (updateRoom s.rooms s.player.currentRoom
          (fun r => { r with doors := unlockFirst c r.doors })) 3).doors = [orangeDoor]
        rw [getRoom_updateRoom_other s.rooms _ 3 _ h3n]
        exact hdoors

theorem inv_runEffect (e : ActionEffect) (s : State) (h : Inv s) :
    Inv (runEffect e s).1 := by
  obtain ⟨hlen, hinv, hrooms, hdoors⟩ := h
  refine ⟨?_, ?_, ?_, ?_⟩
  · rw [runEffect_length]; exact hlen
  · rw [runEffect_player]; exact hinv
  · intro r hr
    rw [mem_iff_getRoom] at hr
    rcases hr with ⟨j, hj, hg⟩
    rw [runEffect_length] at hj
    intro k hk2
    rw [← hg] at hk2
    rw [runEffect_room_keys e s j] at hk2
    exact hrooms _ (mem_of_getRoom_lt s.rooms j hj) k hk2
  · rw [runEffect_room_doors]; exact hdoors

theorem inv_dispState (cmd : String) (s : State) (h : Inv s) :
    Inv (dispState cmd s) := by
  by_cases hq : cmd = "quit"
  · rw [dispState_of_quit cmd s _ (dispatch_quit s cmd hq)]; exact h
  by_cases ht : cmd = "take key"
  · rw [dispState_of_cont cmd s _ _ (dispatch_take s cmd ht)]
    exact inv_take_key s h
  by_cases hu : pyStartsWith cmd "use " = true
  · by_cases hw : (splitWs cmd).length = 3 ∧ (splitWs cmd).getD 2 "" = "key"
    · rw [dispState_of_cont cmd s _ _ (dispatch_use_form s cmd hq ht hu hw.1 hw.2)]
      exact inv_use_key _ s h
    · rw [dispState_of_cont cmd s _ _ (dispatch_use_bad s cmd hq ht hu hw)]
      exact h
  by_cases hi : cmd = "inventory"
  · rw [dispState_of_cont cmd s _ _ (dispatch_inv s cmd hi)]
    rw [list_inventory_state]
    exact h
  cases hl : (getRoom s.rooms s.player.currentRoom).actions.lookup cmd with
  | some eff =>
    rw [dispState_of_cont cmd s _ _ (dispatch_action s cmd eff hq ht hu hi hl)]
    exact inv_runEffect eff s h
  | none =>
    cases hf : (getRoom s.rooms s.player.currentRoom).doors.find?
        (fun d => d.color = cmd) with
    | none =>
      rw [dispState_of_cont cmd s _ _ (dispatch_door_none s cmd hq ht hu hi hl hf)]
      exact h
    | some d =>
      cases hlk : d.locked with
      | true =>
        rw [dispState_of_cont cmd s _ _
          (dispatch_door_locked s cmd d hq ht hu hi hl hf hlk)]
        exact h
      | false =>
        rw [dispState_of_cont cmd s _ _
          (dispatch_door_open s cmd d hq ht hu hi hl hf hlk)]
        exact ⟨h.1, h.2.1, h.2.2.1, h.2.2.2⟩

theorem garden_step (cmd : String) (s : State) (h : Inv s)
    (h3 : s.player.currentRoom = 3) :
    (dispState cmd s).player.currentRoom = 3 := by
  by_cases hq : cmd = "quit"
  · rw [dispState_of_quit cmd s _ (dispatch_quit s cmd hq)]; exact h3
  by_cases ht : cmd = "take key"
  · rw [dispState_of_cont cmd s _ _ (dispatch_take s cmd ht)]
    rw [take_key_currentRoom]
    exact h3
  by_cases hu : pyStartsWith cmd "use " = true
  · by_cases hw : (splitWs cmd).length = 3 ∧ (splitWs cmd).getD 2 "" = "key"
    · rw [dispState_of_cont cmd s _ _ (dispatch_use_form s cmd hq ht hu hw.1 hw.2)]
      rw [show ∀ (t : State) (c : String), (use_key c t).1.player.currentRoom
        = t.player.currentRoom from fun t c => by rw [use_key_player]]
      exact h3
    · rw [dispState_of_cont cmd s _ _ (dispatch_use_bad s cmd hq ht hu hw)]
      exact h3
  by_cases hi : cmd = "inventory"
  · rw [dispState_of_cont cmd s _ _ (dispatch_inv s cmd hi)]
    rw [list_inventory_state]
    exact h3
  cases hl : (getRoom s.rooms s.player.currentRoom).actions.lookup cmd with
  | some eff =>
    rw [dispState_of_cont cmd s _ _ (dispatch_action s cmd eff hq ht hu hi hl)]
    rw [show (runEffect eff s).1.player.currentRoom = s.player.currentRoom from
      by rw [runEffect_player]]
    exact h3
  | none =>
    cases hf : (getRoom s.rooms s.player.currentRoom).doors.find?
        (fun d => d.color = cmd) with
    | none =>
      rw [dispState_of_cont cmd s _ _ (dispatch_door_none s cmd hq ht hu hi hl hf)]
      exact h3
    | some d =>
      cases hlk : d.locked with
      | true =>
        rw [dispState_of_cont cmd s _ _
          (dispatch_door_locked s cmd d hq ht hu hi hl hf hlk)]
        exact h3
      | false =>
        exfalso
        rw [h3, h.2.2.2] at hf
        rcases find?_singleton _ orangeDoor d hf with ⟨hdo, _⟩
        rw [hdo] at hlk
        simp [orangeDoor] at hlk

theorem reach_inv (s : State) (h : Reachable s) : Inv s := by
  induction h with
  | init => exact inv_world
  | step i hs ih =>
    rw [stepState_eq]
    exact inv_dispState _ _ ih

theorem run_garden : ∀ (inputs : List String) (s : State), Inv s →
    s.player.currentRoom = 3 → (run inputs s).player.currentRoom = 3
  | [], s, _, h3 => h3
  | i :: rest, s, h, h3 => by
    rw [run]
    cases hstep : step i s with
    | quit out => exact h3
    | cont s' out =>
      have hs' : dispState (normalize i) s = s' := dispState_of_cont _ _ _ _ hstep
      have hinv' : Inv s' := hs' ▸ inv_dispState (normalize i) s h
      have h3' : s'.player.currentRoom = 3 := hs' ▸ garden_step (normalize i) s h h3
      exact run_garden rest s' hinv' h3'

/-! ### Closet light lemmas -/

theorem pullLight_length (s : State) : (pullLight s).rooms.length = s.rooms.length :=
  runEffect_length _ s

theorem toggleIter_length (n : Nat) : (toggleIter n worldState).rooms.length = 6 := by
  induction n with
  | zero => rfl
  | succ n ih => rw [toggleIter, pullLight_length]; exact ih

theorem pullLight_lightOn (s : State) (h : 5 < s.rooms.length) :
    (getRoom (pullLight s).rooms 5).lightOn = !(getRoom s.rooms 5).lightOn := by
  have he : (pullLight s).rooms = updateRoom s.rooms 5
      (fun r => { r with lightOn := !(getRoom s.rooms 5).lightOn }) := rfl
  rw [he, getRoom_updateRoom_self s.rooms 5 _ h]

theorem pullLight_rooms_oob (s : State) (h : s.rooms.length ≤ 5) :
    (pullLight s).rooms = s.rooms := by
  have he : (pullLight s).rooms = updateRoom s.rooms 5
      (fun r => { r with lightOn := !(getRoom s.rooms 5).lightOn }) := rfl
  rw [he, updateRoom_oob s.rooms 5 _ h]

theorem toggleIter_lightOn (n : Nat) :
    (getRoom (toggleIter n worldState).rooms 5).lightOn = decide (n % 2 = 1) := by
  induction n with
  | zero => decide
  | succ n ih =>
    rw [toggleIter, pullLight_lightOn _ (by rw [toggleIter_length]; omega), ih]
    rcases Nat.mod_two_eq_zero_or_one n with h | h
    · have h2 : (n + 1) % 2 = 1 := by omega
      simp [h, h2]
    · have h2 : (n + 1) % 2 = 0 := by omega
      simp [h, h2]

theorem toggle_message (n : Nat) :
    (runEffect (ActionEffect.toggleLight 5) (toggleIter n worldState)).2
      = [if n % 2 = 0 then lightOnMsg else lightOffMsg] := by
  have he : (runEffect (ActionEffect.toggleLight 5) (toggleIter n worldState)).2
      = [if !(getRoom (toggleIter n worldState).rooms 5).lightOn then lightOnMsg
          else lightOffMsg] := rfl
  rw [he, toggleIter_lightOn]
  rcases Nat.mod_two_eq_zero_or_one n with h | h
  · simp [h]
  · simp [h]

theorem pullLight_twice (s : State) :
    (getRoom (pullLight (pullLight s)).rooms 5).lightOn
      = (getRoom s.rooms 5).lightOn := by
  by_cases h : 5 < s.rooms.length
  · rw [pullLight_lightOn _ (by rw [pullLight_length]; exact h),
      pullLight_lightOn s h, Bool.not_not]
  · have h5 : s.rooms.length ≤ 5 := Nat.le_of_not_lt h
    have e1 : (pullLight s).rooms = s.rooms := pullLight_rooms_oob s h5
    have h5b : (pullLight s).rooms.length ≤ 5 := by rw [e1]; exact h5
    rw [pullLight_rooms_oob _ h5b, e1]

/-! ### The claims -/

/-- Claim C1: for every player state and color, `use_key(color)` unlocks a
door exactly when the inventory holds a key of that color, the current
room has a door of that color, and the first such door is locked
(`UnlockOk`); then the only change is that the first matching door of the
current room is unlocked (its message reports success); when any
condition fails, a single message is printed and the state is completely
unchanged. -/
theorem claim1_use_key_iff (s : State) (c : String) :
    (UnlockOk s c →
      (use_key c s).1.player = s.player ∧
      (use_key c s).1.gameKeys = s.gameKeys ∧
      getRoom (use_key c s).1.rooms s.player.currentRoom
        = { getRoom s.rooms s.player.currentRoom with
            doors := unlockFirst c (getRoom s.rooms s.player.currentRoom).doors } ∧
      (∀ j, j ≠ s.player.currentRoom →
        getRoom (use_key c s).1.rooms j = getRoom s.rooms j) ∧
      (use_key c s).2 = ["You used the " ++ c ++ " key to unlock the door!"]) ∧
    (¬ UnlockOk s c → (use_key c s).1 = s ∧ (use_key c s).2.length = 1) := by
  constructor
  · intro h
    have heq := use_key_ok c s h
    obtain ⟨hk, d, hd, hl⟩ := h
    have hlt : s.player.currentRoom < s.rooms.length := find?_door_lt s c d hd
    refine ⟨?_, ?_, ?_, ?_, ?_⟩
    · rw [heq]
    · rw [heq]
    · rw [heq]
      exact getRoom_updateRoom_self s.rooms _ _ hlt
    · intro j hj
      rw [heq]
      exact getRoom_updateRoom_other s.rooms _ j _ hj
    · rw [heq]
  · intro h
    exact ⟨use_key_not_ok c s h, use_key_fail_out c s h⟩

theorem claim1_witness :
    (use_key "blue" c1PosState).2 = ["You used the blue key to unlock the door!"] ∧
    (use_key "blue" worldState).1 = worldState := by
  have hneg : ¬ UnlockOk worldState "blue" := by
    intro h
    obtain ⟨k, hk, _⟩ := h.1
    exact List.not_mem_nil k hk
  exact ⟨((claim1_use_key_iff c1PosState "blue").1
      ⟨⟨keyBlue, by decide, rfl⟩, ⟨⟨"blue", 2, true⟩, by decide, rfl⟩⟩).2.2.2.2,
    ((claim1_use_key_iff worldState "blue").2 hneg).1⟩

/-- Claim C2: a command that falls through to the door-color branch of the
game loop moves the player to exactly the destination of the first
matching unlocked door; a locked first match or no match leaves
`player.current_room` (indeed the whole state) unchanged. -/
theorem claim2_move (s : State) (cmd : String)
    (h1 : cmd ≠ "quit") (h2 : cmd ≠ "take key")
    (h3 : pyStartsWith cmd "use " = false) (h4 : cmd ≠ "inventory")
    (h5 : (getRoom s.rooms s.player.currentRoom).actions.lookup cmd = none) :
    (∀ d, (getRoom s.rooms s.player.currentRoom).doors.find?
        (fun x => x.color = cmd) = some d → d.locked = false →
      dispatch cmd s = StepResult.cont
        { s with player := { s.player with currentRoom := d.leadsTo } } []) ∧
    (∀ d, (getRoom s.rooms s.player.currentRoom).doors.find?
        (fun x => x.color = cmd) = some d → d.locked = true →
      dispatch cmd s
        = StepResult.cont s ["That door is locked. You need the matching key."]) ∧
    ((getRoom s.rooms s.player.currentRoom).doors.find?
        (fun x => x.color = cmd) = none →
      dispatch cmd s
        = StepResult.cont s ["There is no door of that color here."]) := by
  refine ⟨?_, ?_, ?_⟩
  · intro d hf hlk
    exact dispatch_door_open s cmd d h1 h2 (by simp [h3]) h4 h5 hf hlk
  · intro d hf hlk
    exact dispatch_door_locked s cmd d h1 h2 (by simp [h3]) h4 h5 hf hlk
  · intro hf
    exact dispatch_door_none s cmd h1 h2 (by simp [h3]) h4 h5 hf

theorem claim2_witness :
    dispatch "red" worldState = StepResult.cont
      { worldState with player := { worldState.player with currentRoom := 1 } } [] ∧
    dispatch "blue" worldState
      = StepResult.cont worldState ["That door is locked. You need the matching key."] ∧
    dispatch "magenta" worldState
      = StepResult.cont worldState ["There is no door of that color here."] := by
  refine ⟨?_, ?_, ?_⟩
  · exact (claim2_move worldState "red" (by decide) (by decide) (by decide)
      (by decide) (by decide)).1 ⟨"red", 1, false⟩ (by decide) rfl
  · exact (claim2_move worldState "blue" (by decide) (by decide) (by decide)
      (by decide) (by decide)).2.1 ⟨"blue", 2, true⟩ (by decide) rfl
  · exact (claim2_move worldState "magenta" (by decide) (by decide) (by decide)
      (by decide) (by decide)).2.2 (by decide)

/-- Claim C3: `player.current_room` changes only through a successful
traversal of an unlocked door: whenever one loop iteration continues with
a state whose current room differs, the dispatched command found an
unlocked first-matching door of that color, and the new state is exactly
the old one with the current room moved to that door's destination. -/
theorem claim3_frame (s : State) (cmd : String) (s2 : State) (out : List String)
    (h : dispatch cmd s = StepResult.cont s2 out)
    (hch : s2.player.currentRoom ≠ s.player.currentRoom) :
    ∃ d, (getRoom s.rooms s.player.currentRoom).doors.find?
        (fun x => x.color = cmd) = some d ∧
      d.locked = false ∧
      s2 = { s with player := { s.player with currentRoom := d.leadsTo } } := by
  by_cases hq : cmd = "quit"
  · rw [dispatch_quit s cmd hq] at h
    exact StepResult.noConfusion h
  by_cases ht : cmd = "take key"
  · rw [dispatch_take s cmd ht] at h
    injection h with h1 h2
    exact absurd (h1 ▸ take_key_currentRoom s) hch
  by_cases hu : pyStartsWith cmd "use " = true
  · by_cases hw : (splitWs cmd).length = 3 ∧ (splitWs cmd).getD 2 "" = "key"
    · rw [dispatch_use_form s cmd hq ht hu hw.1 hw.2] at h
      injection h with h1 h2
      have := use_key_player ((splitWs cmd).getD 1 "") s
      exact absurd (h1 ▸ congrArg Player.currentRoom this) hch
    · rw [dispatch_use_bad s cmd hq ht hu hw] at h
      injection h with h1 h2
      exact absurd (h1 ▸ rfl) hch
  by_cases hi : cmd = "inventory"
  · rw [dispatch_inv s cmd hi] at h
    injection h with h1 h2
    have := list_inventory_state s
    exact absurd (congrArg (fun t => t.player.currentRoom) (h1 ▸ this)) hch
  cases hl : (getRoom s.rooms s.player.currentRoom).actions.lookup cmd with
  | some eff =>
    rw [dispatch_action s cmd eff hq ht hu hi hl] at h
    injection h with h1 h2
    have := runEffect_player eff s
    exact absurd (h1 ▸ congrArg Player.currentRoom this) hch
  | none =>
    cases hf : (getRoom s.rooms s.player.currentRoom).doors.find?
        (fun x => x.color = cmd) with
    | none =>
      rw [dispatch_door_none s cmd hq ht hu hi hl hf] at h
      injection h with h1 h2
      exact absurd (h1 ▸ rfl) hch
    | some d =>
      cases hlk : d.locked with
      | true =>
        rw [dispatch_door_locked s cmd d hq ht hu hi hl hf hlk] at h
        injection h with h1 h2
        exact absurd (h1 ▸ rfl) hch
      | false =>
        rw [dispatch_door_open s cmd d hq ht hu hi hl hf hlk] at h
        injection h with h1 h2
        exact ⟨d, rfl, hlk, h1.symm⟩

theorem claim3_witness :
    ∃ d, (getRoom worldState.rooms 0).doors.find?
        (fun x => x.color = "red") = some d ∧
      d.locked = false ∧
      ({ worldState with player := { worldState.player with currentRoom := 1 } } : State)
        = { worldState with
            player := { worldState.player with currentRoom := d.leadsTo } } :=
  claim3_frame worldState "red"
    { worldState with player := { worldState.player with currentRoom := 1 } } []
    (by decide) (by decide)

/-- Claim C4: with duplicate door colors in one room, both the door-color
traversal of the loop and `use_key` resolve to the first matching door in
iteration order: `find?` returns that door, unlocking rewrites only it
(later duplicates keep their lock state), and traversal moves to its
destination. -/
theorem claim4_first_match (s : State) (c : String)
    (ds1 : List Door) (d : Door) (ds2 : List Door)
    (hdoors : (getRoom s.rooms s.player.currentRoom).doors = ds1 ++ d :: ds2)
    (hfirst : ∀ x ∈ ds1, x.color ≠ c) (hcol : d.color = c) :
    ((getRoom s.rooms s.player.currentRoom).doors.find?
      (fun x => x.color = c) = some d) ∧
    ((∃ k ∈ s.player.inventory, k.color = c) → d.locked = true →
      getRoom (use_key c s).1.rooms s.player.currentRoom
        = { getRoom s.rooms s.player.currentRoom with
            doors := ds1 ++ { d with locked := false } :: ds2 }) ∧
    (c ≠ "quit" → c ≠ "take key" → pyStartsWith c "use " = false →
      c ≠ "inventory" →
      (getRoom s.rooms s.player.currentRoom).actions.lookup c = none →
      d.locked = false →
      dispatch c s = StepResult.cont
        { s with player := { s.player with currentRoom := d.leadsTo } } []) := by
  have hfind : (getRoom s.rooms s.player.currentRoom).doors.find?
      (fun x => x.color = c) = some d := by
    rw [hdoors]
    exact find?_first_door c ds1 d ds2 hfirst hcol
  refine ⟨hfind, ?_, ?_⟩
  · intro hk hlk
    have heq := use_key_ok c s ⟨hk, d, hfind, hlk⟩
    have hlt := find?_door_lt s c d hfind
    rw [heq, getRoom_updateRoom_self s.rooms _ _ hlt, hdoors,
      unlockFirst_append c ds1 d ds2 hfirst hcol]
  · intro h1 h2 h3 h4 h5 hlk
    exact dispatch_door_open s c d h1 h2 (by simp [h3]) h4 h5 hfind hlk

theorem claim4_witness :
    getRoom (use_key "red" dupStateLocked).1.rooms 0
      = { dupRoomLocked with
          doors := [⟨"blue", 1, false⟩, ⟨"red", 1, false⟩, ⟨"red", 2, false⟩] } ∧
    dispatch "red" dupStateOpen = StepResult.cont
      { dupStateOpen with
        player := { dupStateOpen.player with currentRoom := 7 } } [] := by
  constructor
  · have h := (claim4_first_match dupStateLocked "red"
      [⟨"blue", 1, false⟩] ⟨"red", 1, true⟩ [⟨"red", 2, false⟩]
      rfl (by decide) rfl).2.1 ⟨⟨"red", 0, ""⟩, by decide, rfl⟩ rfl
    exact h
  · exact (claim4_first_match dupStateOpen "red"
      [⟨"blue", 1, false⟩] ⟨"red", 7, false⟩ [⟨"red", 2, false⟩]
      rfl (by decide) rfl).2.2 (by decide) (by decide) (by decide) (by decide)
      (by decide) rfl

/-- Claim C5: `take_key()` moves every key of the current room into the
inventory (appended in room iteration order, one pickup line per key) and
empties the room's key list, leaving everything else unchanged; with no
keys it prints a message and mutates nothing, so an immediately repeated
call reports "no keys" and changes nothing. -/
theorem claim5_take_key (s : State) :
    ((getRoom s.rooms s.player.currentRoom).keys = [] →
      take_key s = (s, ["There are no keys here to take."])) ∧
    ((getRoom s.rooms s.player.currentRoom).keys ≠ [] →
      (take_key s).1.player.currentRoom = s.player.currentRoom ∧
      (take_key s).1.player.inventory
        = s.player.inventory ++ (getRoom s.rooms s.player.currentRoom).keys ∧
      (take_key s).2 = (getRoom s.rooms s.player.currentRoom).keys.map
        (fun k => "You picked up the " ++ k.color ++ " key.") ∧
      getRoom (take_key s).1.rooms s.player.currentRoom
        = { getRoom s.rooms s.player.currentRoom with keys := [] } ∧
      (∀ j, j ≠ s.player.currentRoom →
        getRoom (take_key s).1.rooms j = getRoom s.rooms j) ∧
      (take_key s).1.gameKeys = s.gameKeys) ∧
    take_key (take_key s).1 = ((take_key s).1, ["There are no keys here to take."]) := by
  refine ⟨take_key_empty s, ?_, ?_⟩
  · intro h
    rw [take_key_eq_pickup s h]
    refine ⟨pickupLoop_currentRoom _ _ _ _, pickupLoop_inventory _ _ _ _, ?_,
      pickupLoop_room_self _ _ _ _ rfl,
      fun j hj => pickupLoop_room_other _ j hj _ _ _,
      pickupLoop_gameKeys _ _ _ _⟩
    rw [pickupLoop_out]
    simp
  · apply take_key_empty
    rw [take_key_currentRoom]
    by_cases h : (getRoom s.rooms s.player.currentRoom).keys = []
    · rw [take_key_empty s h]
      exact h
    · rw [take_key_eq_pickup s h, pickupLoop_room_self _ _ _ _ rfl]

theorem claim5_witness :
    (take_key livingState).1.player.inventory = [] ++ [keyBlue] ∧
    getRoom (take_key livingState).1.rooms 1
      = { getRoom livingState.rooms 1 with keys := [] } ∧
    take_key worldState = (worldState, ["There are no keys here to take."]) ∧
    take_key (take_key livingState).1
      = ((take_key livingState).1, ["There are no keys here to take."]) := by
  have h := claim5_take_key livingState
  refine ⟨?_, ?_, (claim5_take_key worldState).1 (by decide), h.2.2⟩
  · have h2 := (h.2.1 (by decide)).2.1
    simpa using h2
  · exact (h.2.1 (by decide)).2.2.2.1

/-- Claim C6: starting from the freshly built world (closet light off),
the closet light flag after `n` invocations of "pull string" is on
exactly for odd `n` (so it strictly alternates), the printed message
alternates between the light-on and light-off lines starting with
light-on, and two invocations always restore the flag. -/
theorem claim6_toggle :
    (∀ n : Nat,
      (getRoom (toggleIter n worldState).rooms 5).lightOn = decide (n % 2 = 1)) ∧
    (∀ n : Nat, (runEffect (ActionEffect.toggleLight 5) (toggleIter n worldState)).2
      = [if n % 2 = 0 then lightOnMsg else lightOffMsg]) ∧
    (∀ s : State, (getRoom (pullLight (pullLight s)).rooms 5).lightOn
      = (getRoom s.rooms 5).lightOn) :=
  ⟨toggleIter_lightOn, toggle_message, pullLight_twice⟩

/-- Claim C7: `Room.describe()` is a pure read: threading the game state
through the call returns it unchanged (so rooms, doors, keys, actions and
the player are all identical before and after). -/
theorem claim7_describe_pure (s : State) : (describeRun s).1 = s := rfl

/-- Claim C8: the loop dispatches a normalized command in fixed priority
order: exact "quit" quits; exact "take key" runs take_key; a "use "
prefix requires exactly three whitespace tokens with the third "key"
(running use_key on the second token, else only a usage hint); exact
"inventory" lists the inventory; then a matching custom room action runs;
only with none of these does the input act as a door color. -/
theorem claim8_priority (s : State) (cmd : String) :
    (cmd = "quit" → dispatch cmd s = StepResult.quit ["Thanks for playing!"]) ∧
    (cmd = "take key" → dispatch cmd s = contOf (take_key s)) ∧
    (cmd ≠ "quit" → cmd ≠ "take key" → pyStartsWith cmd "use " = true →
      (splitWs cmd).length = 3 → (splitWs cmd).getD 2 "" = "key" →
      dispatch cmd s = contOf (use_key ((splitWs cmd).getD 1 "") s)) ∧
    (cmd ≠ "quit" → cmd ≠ "take key" → pyStartsWith cmd "use " = true →
      ¬((splitWs cmd).length = 3 ∧ (splitWs cmd).getD 2 "" = "key") →
      dispatch cmd s = StepResult.cont s ["Try \x27use [color] key\x27."]) ∧
    (cmd = "inventory" → dispatch cmd s = contOf (list_inventory s)) ∧
    (∀ eff, cmd ≠ "quit" → cmd ≠ "take key" → pyStartsWith cmd "use " = false →
      cmd ≠ "inventory" →
      (getRoom s.rooms s.player.currentRoom).actions.lookup cmd = some eff →
      dispatch cmd s = contOf (runEffect eff s)) ∧
    (cmd ≠ "quit" → cmd ≠ "take key" → pyStartsWith cmd "use " = false →
      cmd ≠ "inventory" →
      (getRoom s.rooms s.player.currentRoom).actions.lookup cmd = none →
      dispatch cmd s =
        match (getRoom s.rooms s.player.currentRoom).doors.find?
            (fun d => d.color = cmd) with
        | none => StepResult.cont s ["There is no door of that color here."]
        | some d =>
          if d.locked then
            StepResult.cont s ["That door is locked. You need the matching key."]
          else
            StepResult.cont
              { s with player := { s.player with currentRoom := d.leadsTo } } []) := by
  refine ⟨dispatch_quit s cmd, dispatch_take s cmd,
    fun h1 h2 h3 h4 h5 => dispatch_use_form s cmd h1 h2 h3 h4 h5,
    fun h1 h2 h3 h4 => dispatch_use_bad s cmd h1 h2 h3 h4,
    dispatch_inv s cmd,
    fun eff h1 h2 h3 h4 hl => dispatch_action s cmd eff h1 h2 (by simp [h3]) h4 hl,
    fun h1 h2 h3 h4 hl => ?_⟩
  rw [dispatch_else s cmd h1 h2 (by simp [h3]) h4, hl]

theorem claim8_witness :
    dispatch "quit" worldState = StepResult.quit ["Thanks for playing!"] ∧
    dispatch "take key" worldState = contOf (take_key worldState) ∧
    dispatch "use blue key" worldState = contOf (use_key "blue" worldState) ∧
    dispatch "use blue" worldState
      = StepResult.cont worldState ["Try \x27use [color] key\x27."] ∧
    dispatch "inventory" worldState = contOf (list_inventory worldState) ∧
    dispatch "pull string" closetState
      = contOf (runEffect (ActionEffect.toggleLight 5) closetState) ∧
    dispatch "red" worldState = StepResult.cont
      { worldState with player := { worldState.player with currentRoom := 1 } } [] := by
  refine ⟨(claim8_priority worldState "quit").1 rfl,
    (claim8_priority worldState "take key").2.1 rfl,
    (claim8_priority worldState "use blue key").2.2.1 (by decide) (by decide)
      (by decide) (by decide) (by decide),
    (claim8_priority worldState "use blue").2.2.2.1 (by decide) (by decide)
      (by decide) (by decide),
    (claim8_priority worldState "inventory").2.2.2.2.1 rfl,
    (claim8_priority closetState "pull string").2.2.2.2.2.1
      (ActionEffect.toggleLight 5) (by decide) (by decide) (by decide) (by decide)
      (by decide), ?_⟩
  have h := (claim8_priority worldState "red").2.2.2.2.2.2 (by decide) (by decide)
    (by decide) (by decide) (by decide)
  exact h

/-- Claim C9: the constructed world has exactly the six named rooms in
order, ten door declarations in total, two keys; the Garden's door is
orange, locked, and leads to the Living Room; and the player starts in
the Kitchen with an empty inventory. -/
theorem claim9_world :
    worldState.rooms.length = 6 ∧
    worldState.rooms.map Room.name
      = ["Kitchen", "Living Room", "Study", "Garden", "Bedroom", "Bedroom Closet"] ∧
    (worldState.rooms.map (fun r => r.doors.length)).sum = 10 ∧
    worldState.gameKeys.length = 2 ∧
    (worldState.rooms.map (fun r => r.keys.length)).sum = 2 ∧
    (getRoom worldState.rooms 3).doors = [⟨"orange", 1, true⟩] ∧
    (getRoom worldState.rooms 1).name = "Living Room" ∧
    worldState.player.currentRoom = 0 ∧
    (getRoom worldState.rooms 0).name = "Kitchen" ∧
    worldState.player.inventory = [] := by
  decide

/-- Claim C10: in the constructed world the Garden's only door is the
locked orange one to the Living Room and no orange key exists anywhere;
consequently, from any reachable state in which the player stands in the
Garden (room 3), no input sequence ever changes the current room again. -/
theorem claim10_garden_trap :
    (getRoom worldState.rooms 3).doors = [orangeDoor] ∧
    orangeDoor.locked = true ∧
    (∀ k ∈ worldState.player.inventory, k.color ≠ "orange") ∧
    (∀ r ∈ worldState.rooms, ∀ k ∈ r.keys, k.color ≠ "orange") ∧
    (∀ s : State, Reachable s → s.player.currentRoom = 3 →
      ∀ inputs : List String, (run inputs s).player.currentRoom = 3) := by
  refine ⟨inv_world.2.2.2, rfl, inv_world.2.1, inv_world.2.2.1, ?_⟩
  intro s hs h3 inputs
  exact run_garden inputs s (reach_inv s hs) h3

theorem claim10_witness :
    (run ["orange", "take key", "use cyan key", "green"] gardenState).player.currentRoom
      = 3 := by
  have hr : Reachable gardenState :=
    Reachable.step "yellow" (Reachable.step "red" Reachable.init)
  exact claim10_garden_trap.2.2.2.2 gardenState hr (by decide)
    ["orange", "take key", "use cyan key", "green"]

end RoomGame
